import Mathlib

/-!
Shallow embedding of `src/renderer/suncg/scene.cc` (House3D SUNCG renderer):
the color allocator, the category resolver, the scene builder (`parse_scene`)
and the fragment shader `SUNCGShader::fShader`.

Machine floats of the shader are modelled as exact rationals; the GLSL
builtins `normalize` and `texture` are irrational / external, so they are
passed as function parameters.  `std::random_shuffle` is modelled as a
function parameter together with the hypothesis that it permutes its input.
-/

namespace SUNCG

/-- `glm::vec3`, componentwise rationals. -/
abbrev Vec3 : Type := ℚ × ℚ × ℚ

abbrev Color : Type := Vec3

/-! ## Color allocator (`get_uniform_sampled_colors`, scene.cc:21-38) -/

/-- Decoding of one 24-bit integer into an RGB color, as in scene.cc:27-31:
`r = c % 256`, `g = (c / 256) % 256`, `b = (c / 256 / 256) % 256`,
each divided by `255.0`. -/
def decodeColor (c : ℕ) : Color :=
  (((c % 256 : ℕ) : ℚ) / 255, ((c / 256 % 256 : ℕ) : ℚ) / 255,
    ((c / 256 / 256 % 256 : ℕ) : ℚ) / 255)

/-- The loop of scene.cc:26-34: `n` iterations, pushing the decoding of
`current` and then incrementing `current` by `interval`. -/
def colorLoop : ℕ → ℕ → ℕ → List Color
  | 0, _, _ => []
  | n + 1, interval, current =>
      decodeColor current :: colorLoop n interval (current + interval)

/-- The list built before the shuffle: `interval = 256^3 / (count + 2)`
(C++ integer division), `current` starts at `interval`. -/
def preShuffleColors (count : ℕ) : List Color :=
  colorLoop count (256 ^ 3 / (count + 2)) (256 ^ 3 / (count + 2))

/-- `get_uniform_sampled_colors` (scene.cc:21-38).  `std::random_shuffle` is
modelled by the `shuffle` parameter; theorems assume it permutes its input. -/
def get_uniform_sampled_colors (shuffle : List Color → List Color)
    (count : ℕ) : List Color :=
  shuffle (preShuffleColors count)

/-! ## Fragment shader (`SUNCGShader::fShader`, scene.cc:45-125) -/

def NEAR : ℚ := 1 / 10
def FAR : ℚ := 100
def INV_NEAR : ℚ := 1 / NEAR
def INV_FAR : ℚ := 1 / FAR
def DEPTH_SCALE : ℚ := 20

/-- `InverseDepth` (scene.cc:74-76). -/
def InverseDepth (d : ℚ) : ℚ := INV_NEAR + d * (INV_FAR - INV_NEAR)

/-- `TrueDepth` (scene.cc:79-81). -/
def TrueDepth (d : ℚ) : ℚ := 1 / InverseDepth d

/-- An RGBA fragment color. -/
structure Frag where
  r : ℚ
  g : ℚ
  b : ℚ
  a : ℚ
deriving DecidableEq, Repr

/-- The inputs of the fragment shader: uniforms, interpolated vertex
attributes, and `gl_FragCoord.z` (`fragDepth`). -/
structure ShaderInput where
  mode : ℕ
  Kd : Vec3
  Ka : Vec3
  eye : Vec3
  pos : Vec3
  normal : Vec3
  texcoord : ℚ × ℚ
  dissolve : ℚ
  minDepth : ℚ
  fragDepth : ℚ

def vsub (a b : Vec3) : Vec3 := (a.1 - b.1, a.2.1 - b.2.1, a.2.2 - b.2.2)

def vadd (a b : Vec3) : Vec3 := (a.1 + b.1, a.2.1 + b.2.1, a.2.2 + b.2.2)

def vmul (a b : Vec3) : Vec3 := (a.1 * b.1, a.2.1 * b.2.1, a.2.2 * b.2.2)

def vscale (s : ℚ) (a : Vec3) : Vec3 := (s * a.1, s * a.2.1, s * a.2.2)

def vdot (a b : Vec3) : ℚ := a.1 * b.1 + a.2.1 * b.2.1 + a.2.2 * b.2.2

/-- GLSL `clamp(x, 0.0f, 1.0f)`. -/
def clamp01 (x : ℚ) : ℚ := min (max x 0) 1

def vclamp01 (a : Vec3) : Vec3 := (clamp01 a.1, clamp01 a.2.1, clamp01 a.2.2)

/-- The shader `main` (scene.cc:83-124).  `normalizeGL` models the GLSL
builtin `normalize` (irrational, hence a parameter); `textureGL` models the
`texture` sampler lookup at a coordinate.  In the final `switch`, `color` is
left uninitialized by the GLSL when `mode` is not 0 or 1; that case is
modelled as black. -/
def fShaderMain (normalizeGL : Vec3 → Vec3)
    (textureGL : ℚ × ℚ → ℚ × ℚ × ℚ × ℚ) (inp : ShaderInput) : Frag :=
  if inp.mode = 2 then
    ⟨inp.Kd.1, inp.Kd.2.1, inp.Kd.2.2, 1⟩
  else if inp.mode = 3 then
    let scaledDepth := TrueDepth inp.fragDepth / DEPTH_SCALE
    ⟨scaledDepth, scaledDepth, scaledDepth, 1⟩
  else if inp.mode = 4 then
    let invDepth := InverseDepth inp.fragDepth
    let f := 65535 * inp.minDepth * invDepth + 1 / 2
    let ms : ℚ := ((⌊f / 256⌋ : ℤ) : ℚ)
    let ls : ℚ := ((⌊f - ms * 256⌋ : ℤ) : ℚ)
    ⟨ms / 255, ls / 255, 0, 1⟩
  else
    let alpha0 := inp.dissolve
    let texcolor := textureGL inp.texcoord
    let colorAlpha : Vec3 × ℚ :=
      if inp.mode = 0 then
        (vmul inp.Kd (texcolor.1, texcolor.2.1, texcolor.2.2.1),
          min texcolor.2.2.2 alpha0)
      else if inp.mode = 1 then (inp.Kd, alpha0)
      else ((0, 0, 0), alpha0)
    let in_vec := normalizeGL (vsub inp.eye inp.pos)
    let scale := max (vdot in_vec inp.normal) (3 / 10)
    let ambient := vscale (1 / 10) inp.Ka
    let color := vclamp01 (vadd (vscale scale colorAlpha.1) ambient)
    ⟨color.1, color.2.1, color.2.2, colorAlpha.2⟩

/-! ## Category resolver (`get_color_by_shape_name`, scene.cc:210-235) -/

/-- The external lookup tables of the scene: the model→category table
(`model_category_`, giving `name_from_mode_id`), the semantic color table
(`semantic_color_.get_color`) and the designated background color.  These
collaborators are loaded from files outside this translation unit, so they
are abstract total functions. -/
structure Tables where
  model_class : String → String
  semantic_color : String → Color
  background : Color

/-- The substring of `name` before the first `'#'`
(`name.substr(0, name.find('#'))` when `find` succeeds). -/
def classBeforeHash (name : String) : String :=
  (name.toList.takeWhile (fun c => c ≠ '#')).asString

/-- The fixed alias of scene.cc:225-226: `WallInside` and `WallOutside`
both map to `Wall`. -/
def aliasWall (klass : String) : String :=
  if klass = "WallInside" ∨ klass = "WallOutside" then "Wall" else klass

/-- `SUNCGScene::get_color_by_shape_name` (scene.cc:210-235).
`name.find("Model#") == 0` is the prefix test, written over the character
list; on a match the model id is the rest of the name (`substr(6)`). -/
def get_color_by_shape_name (T : Tables) (name : String) : Color :=
  if name.toList.take 6 = "Model#".toList then
    T.semantic_color (T.model_class ((name.toList.drop 6).asString))
  else if name = "Ground" then
    T.semantic_color "Ground"
  else if '#' ∈ name.toList then
    T.semantic_color (aliasWall (classBeforeHash name))
  else
    T.background

/-! ## Scene builder (`SUNCGScene::parse_scene`, scene.cc:237-271) -/

/-- One shape as handed to `parse_scene`: its name, its position in the
original (pre-filter, pre-split) shape list, the per-face vertex positions
(`convertFace` output; the mesh parser is an external collaborator) and the
per-face material ids of `tinyobj::mesh_t`. -/
structure Shape where
  name : String
  original_index : ℕ
  faces : List (List Vec3)
  material_ids : List ℤ

/-- `MaterialDesc` as filled by scene.cc:257 (texture handle and raw
material pointer are external GPU/parser resources, not part of the
embedding). -/
structure MaterialDesc where
  mid : ℤ
  label_color : Color
  instance_color : Color
deriving DecidableEq, Repr

structure PreparedMesh where
  vertices : List Vec3
deriving DecidableEq, Repr

/-- The state mutated by `parse_scene`: the mesh and material arrays and
the running bounding box. -/
structure SceneState where
  mesh : List PreparedMesh
  materials : List MaterialDesc
  boxmin : Vec3
  boxmax : Vec3
deriving DecidableEq, Repr

/-- `std::numeric_limits<float>::max()` as an exact rational:
`2^128 - 2^104`. -/
def FLT_MAX : ℚ := 340282346638528859811704183484516925440

/-- `std::numeric_limits<float>::lowest()` as an exact rational:
`-(2^128 - 2^104)`. -/
def FLT_LOWEST : ℚ := -340282346638528859811704183484516925440

/-- `glm::min`, componentwise. -/
def vmin (a b : Vec3) : Vec3 := (min a.1 b.1, min a.2.1 b.2.1, min a.2.2 b.2.2)

/-- `glm::max`, componentwise. -/
def vmax (a b : Vec3) : Vec3 := (max a.1 b.1, max a.2.1 b.2.1, max a.2.2 b.2.2)

/-- Componentwise `≤` on `glm::vec3`. -/
def vle (a b : Vec3) : Prop := a.1 ≤ b.1 ∧ a.2.1 ≤ b.2.1 ∧ a.2.2 ≤ b.2.2

instance (a b : Vec3) : Decidable (vle a b) := by
  unfold vle; infer_instance

/-- The state at scene.cc:238-241: empty arrays, box min at float max and
box max at float lowest. -/
def initState : SceneState :=
  ⟨[], [], (FLT_MAX, FLT_MAX, FLT_MAX), (FLT_LOWEST, FLT_LOWEST, FLT_LOWEST)⟩

/-- The body of the loop of scene.cc:244-267 for one shape.  The two
`m_assert`s (scene.cc:251-252) are modelled as `none` (fatal assertion);
on success the shape appends exactly one mesh and one material, taking
`matids[0]` as the material id, and folds every face vertex into the
bounding box. -/
def processShape (T : Tables) (palette : List Color) (st : SceneState)
    (shp : Shape) : Option SceneState :=
  let label_color := get_color_by_shape_name T shp.name
  let instance_color := palette.getD shp.original_index (0, 0, 0)
  let nr_face := shp.faces.length
  if shp.material_ids.length = nr_face then
    if 0 < nr_face then
      let mid := shp.material_ids.headD 0
      let verts := shp.faces.flatten
      some { mesh := st.mesh ++ [⟨verts⟩]
             materials := st.materials ++ [⟨mid, label_color, instance_color⟩]
             boxmin := verts.foldl vmin st.boxmin
             boxmax := verts.foldl vmax st.boxmax }
    else none
  else none

/-- The loop of scene.cc:244-267 over the retained shape list. -/
def processShapes (T : Tables) (palette : List Color) :
    SceneState → List Shape → Option SceneState
  | st, [] => some st
  | st, shp :: rest =>
      match processShape T palette st shp with
      | none => none
      | some st' => processShapes T palette st' rest

/-- `SUNCGScene::parse_scene` (scene.cc:237-271): the instance palette is
the color allocator sized to `obj_.original_num_shapes`, then every
retained shape is processed in order starting from the sentinel state. -/
def parse_scene (shuffle : List Color → List Color) (T : Tables)
    (original_num_shapes : ℕ) (shapes : List Shape) : Option SceneState :=
  processShapes T (get_uniform_sampled_colors shuffle original_num_shapes)
    initState shapes

/-- All retained vertex positions, in processing order. -/
def allVerts (shapes : List Shape) : List Vec3 :=
  shapes.flatMap (fun s => s.faces.flatten)

/-- Componentwise `<` on `glm::vec3`. -/
def vlt (a b : Vec3) : Prop := a.1 < b.1 ∧ a.2.1 < b.2.1 ∧ a.2.2 < b.2.2

instance (a b : Vec3) : Decidable (vlt a b) := by
  unfold vlt; infer_instance

/-- The material descriptor appended for one shape (scene.cc:254-257). -/
def matOf (T : Tables) (palette : List Color) (s : Shape) : MaterialDesc :=
  ⟨s.material_ids.headD 0, get_color_by_shape_name T s.name,
    palette.getD s.original_index (0, 0, 0)⟩

/-- All three components of a color lie in `[0, 1]`. -/
def componentsIn01 (c : Color) : Prop :=
  0 ≤ c.1 ∧ c.1 ≤ 1 ∧ 0 ≤ c.2.1 ∧ c.2.1 ≤ 1 ∧ 0 ≤ c.2.2 ∧ c.2.2 ≤ 1

/-! ## Concrete fixtures used by the witness theorems -/

/-- A concrete table: the semantic color of a class encodes its length. -/
def T0 : Tables :=
  ⟨fun s => s ++ "c", fun s => ((s.length : ℚ), 0, 0), (1, 1, 1)⟩

/-- A concrete mode-2 shader input. -/
def inpA : ShaderInput :=
  ⟨2, (1/2, 1/4, 1/8), (1, 1, 1), (0, 0, 0), (5, 5, 5), (0, 1, 0),
    (0, 0), 1/2, 1/10, 1/3⟩

/-- Another mode-2 shader input with the same `Kd` but all other fields
different. -/
def inpB : ShaderInput :=
  ⟨2, (1/2, 1/4, 1/8), (0, 2, 0), (9, 9, 9), (1, 2, 3), (1, 0, 0),
    (1, 1), 1/7, 3, 2/3⟩

/-- A concrete mode-4 (inverse depth) shader input. -/
def inpD : ShaderInput :=
  ⟨4, (0, 0, 0), (0, 0, 0), (0, 0, 0), (0, 0, 0), (0, 0, 1),
    (0, 0), 1, 1/10, 1/2⟩

/-- A shape whose two faces carry two distinct material ids. -/
def badShape : Shape :=
  ⟨"A#1", 0, [[(0, 0, 0)], [(1, 1, 1)]], [0, 1]⟩

/-- A shape with zero faces. -/
def emptyShape : Shape := ⟨"B#1", 0, [], []⟩

/-- A well-formed one-face shape. -/
def okShape : Shape := ⟨"Wall#1", 1, [[(0, 0, 0), (2, 1, 0), (0, 1, 3)]], [5]⟩

/-- A concrete stand-in for `std::random_shuffle` returning a fixed
palette (claims C3, C8 and C9 hold for any shuffle function). -/
def constShuffle : List Color → List Color := fun _ => [(0, 0, 0), (1, 0, 0)]

/-- The state `parse_scene constShuffle T0 2 [okShape]` produces. -/
def stOk : SceneState :=
  ⟨[⟨[(0, 0, 0), (2, 1, 0), (0, 1, 3)]⟩],
    [⟨5, (4, 0, 0), (1, 0, 0)⟩], (0, 0, 0), (2, 1, 3)⟩

end SUNCG

namespace SUNCG

/-! ## Theorems -/

/-- Splitting `⌊f⌋` into the most/least significant byte exactly as the
shader does recombines to `⌊f⌋`. -/
theorem floor_split (f : ℚ) :
    256 * ((⌊f / 256⌋ : ℤ) : ℚ) +
      ((⌊f - ((⌊f / 256⌋ : ℤ) : ℚ) * 256⌋ : ℤ) : ℚ) = ((⌊f⌋ : ℤ) : ℚ) := by
  have h : f - ((⌊f / 256⌋ : ℤ) : ℚ) * 256 = f - ((⌊f / 256⌋ * 256 : ℤ) : ℚ) := by
    push_cast; ring
  rw [h, Int.floor_sub_int]
  push_cast
  ring

/-- `⌊x + 1/2⌋` is within `1/2` of `x`. -/
theorem floor_round_half (x : ℚ) : |((⌊x + 1/2⌋ : ℤ) : ℚ) - x| ≤ 1/2 := by
  have h1 : ((⌊x + 1/2⌋ : ℤ) : ℚ) ≤ x + 1/2 := Int.floor_le _
  have h2 : x + 1/2 - 1 < ((⌊x + 1/2⌋ : ℤ) : ℚ) := Int.sub_one_lt_floor _
  rw [abs_le]
  constructor <;> linarith

/-- The shader's two-byte code, recombined as `256*ms + ls` and divided by
the scale `c`, recovers `y` within `1/c`. -/
theorem code_div_recovers (c y : ℚ) (hc : 0 < c) :
    |(256 * ((⌊(c * y + 1/2) / 256⌋ : ℤ) : ℚ) +
        ((⌊(c * y + 1/2) -
            ((⌊(c * y + 1/2) / 256⌋ : ℤ) : ℚ) * 256⌋ : ℤ) : ℚ)) / c - y| ≤
      1 / c := by
  rw [floor_split]
  have h2 : |((⌊c * y + 1/2⌋ : ℤ) : ℚ) - c * y| ≤ 1/2 := floor_round_half (c * y)
  have he : ((⌊c * y + 1/2⌋ : ℤ) : ℚ) / c - y =
      (((⌊c * y + 1/2⌋ : ℤ) : ℚ) - c * y) / c := by
    field_simp
  rw [he, abs_div, abs_of_pos hc]
  have h3 : |((⌊c * y + 1/2⌋ : ℤ) : ℚ) - c * y| ≤ 1 := le_trans h2 (by norm_num)
  calc |((⌊c * y + 1/2⌋ : ℤ) : ℚ) - c * y| / c ≤ 1 / c := by gcongr

/-- Closed form of the allocator loop. -/
theorem colorLoop_eq (n : ℕ) : ∀ interval current : ℕ,
    colorLoop n interval current =
      (List.range n).map (fun i => decodeColor (current + interval * i)) := by
  induction n with
  | zero => intro interval current; rfl
  | succ n ih =>
      intro interval current
      rw [colorLoop, ih, List.range_succ_eq_map]
      simp only [List.map_cons, List.map_map, Nat.mul_zero, Nat.add_zero]
      refine congrArg (decodeColor current :: ·) ?_
      apply List.map_congr_left
      intro i _
      simp only [Function.comp_apply]
      congr 1
      rw [Nat.mul_succ]
      omega

/-- Closed form of the pre-shuffle palette: entry `i` decodes
`interval * (i + 1)`. -/
theorem preShuffleColors_eq (count : ℕ) :
    preShuffleColors count =
      (List.range count).map
        (fun i => decodeColor (256 ^ 3 / (count + 2) * (i + 1))) := by
  rw [preShuffleColors, colorLoop_eq]
  apply List.map_congr_left
  intro i _
  congr 1
  ring

/-- `decodeColor` is injective below `256^3`. -/
theorem decodeColor_inj (a b : ℕ) (ha : a < 256 ^ 3) (hb : b < 256 ^ 3)
    (h : decodeColor a = decodeColor b) : a = b := by
  rw [decodeColor, decodeColor, Prod.mk.injEq, Prod.mk.injEq] at h
  obtain ⟨h1, h2, h3⟩ := h
  have e1 : a % 256 = b % 256 := by field_simp at h1; exact_mod_cast h1
  have e2 : a / 256 % 256 = b / 256 % 256 := by field_simp at h2; exact_mod_cast h2
  have e3 : a / 256 / 256 % 256 = b / 256 / 256 % 256 := by
    field_simp at h3; exact_mod_cast h3
  have ha' : a < 16777216 := by norm_num at ha; exact ha
  have hb' : b < 16777216 := by norm_num at hb; exact hb
  omega

/-- A byte value divided by 255 lies in `[0, 1]`. -/
theorem byte_div_in01 (m : ℕ) (hm : m < 256) :
    0 ≤ ((m : ℕ) : ℚ) / 255 ∧ ((m : ℕ) : ℚ) / 255 ≤ 1 := by
  constructor
  · positivity
  · rw [div_le_one (by norm_num)]
    exact_mod_cast Nat.le_of_lt_succ hm

/-- Every decoded color has all components in `[0, 1]`. -/
theorem decodeColor_in01 (c : ℕ) : componentsIn01 (decodeColor c) := by
  obtain ⟨p1, p2⟩ := byte_div_in01 (c % 256) (Nat.mod_lt _ (by norm_num))
  obtain ⟨q1, q2⟩ := byte_div_in01 (c / 256 % 256) (Nat.mod_lt _ (by norm_num))
  obtain ⟨r1, r2⟩ := byte_div_in01 (c / 256 / 256 % 256) (Nat.mod_lt _ (by norm_num))
  exact ⟨p1, p2, q1, q2, r1, r2⟩

/-- The raw allocator value of index `i` stays below `256^3`. -/
theorem raw_value_lt (count i : ℕ) (hc : count + 2 ≤ 256 ^ 3) (hi : i < count) :
    256 ^ 3 / (count + 2) * (i + 1) < 256 ^ 3 := by
  have hint : 1 ≤ 256 ^ 3 / (count + 2) := (Nat.one_le_div_iff (by omega)).mpr hc
  have h1 : 256 ^ 3 / (count + 2) * (i + 1) ≤ 256 ^ 3 / (count + 2) * count :=
    Nat.mul_le_mul_left _ (by omega)
  have h2 : 256 ^ 3 / (count + 2) * (count + 2) ≤ 256 ^ 3 :=
    Nat.div_mul_le_self _ _
  have h3 : 256 ^ 3 / (count + 2) * count + 256 ^ 3 / (count + 2) * 2 =
      256 ^ 3 / (count + 2) * (count + 2) := by ring
  omega

/-- The pre-shuffle palette has no duplicate colors as long as
`count + 2 ≤ 256^3`. -/
theorem preShuffleColors_nodup (count : ℕ) (hc : count + 2 ≤ 256 ^ 3) :
    (preShuffleColors count).Nodup := by
  rw [preShuffleColors_eq]
  have hint : 1 ≤ 256 ^ 3 / (count + 2) := (Nat.one_le_div_iff (by omega)).mpr hc
  refine List.Nodup.map_on ?_ (List.nodup_range count)
  intro i hi j hj hentry
  rw [List.mem_range] at hi hj
  have hij := decodeColor_inj _ _ (raw_value_lt count i hc hi)
    (raw_value_lt count j hc hj) hentry
  have h1 : i + 1 = j + 1 :=
    Nat.eq_of_mul_eq_mul_left (show 0 < 256 ^ 3 / (count + 2) by omega) hij
  omega

theorem vle_refl (a : Vec3) : vle a a := ⟨le_refl _, le_refl _, le_refl _⟩

theorem vle_trans {a b c : Vec3} (h1 : vle a b) (h2 : vle b c) : vle a c :=
  ⟨h1.1.trans h2.1, h1.2.1.trans h2.2.1, h1.2.2.trans h2.2.2⟩

theorem vmin_le_left (a b : Vec3) : vle (vmin a b) a :=
  ⟨min_le_left _ _, min_le_left _ _, min_le_left _ _⟩

theorem vmin_le_right (a b : Vec3) : vle (vmin a b) b :=
  ⟨min_le_right _ _, min_le_right _ _, min_le_right _ _⟩

theorem le_vmax_left (a b : Vec3) : vle a (vmax a b) :=
  ⟨le_max_left _ _, le_max_left _ _, le_max_left _ _⟩

theorem le_vmax_right (a b : Vec3) : vle b (vmax a b) :=
  ⟨le_max_right _ _, le_max_right _ _, le_max_right _ _⟩

/-- Folding `vmin` only shrinks the accumulator. -/
theorem foldl_vmin_le_init (l : List Vec3) : ∀ s : Vec3, vle (l.foldl vmin s) s := by
  induction l with
  | nil => intro s; exact vle_refl s
  | cons x xs ih =>
      intro s
      exact vle_trans (ih (vmin s x)) (vmin_le_left s x)

/-- The `vmin` fold is below every list element. -/
theorem foldl_vmin_le_mem (l : List Vec3) :
    ∀ (s v : Vec3), v ∈ l → vle (l.foldl vmin s) v := by
  induction l with
  | nil => intro s v hv; cases hv
  | cons x xs ih =>
      intro s v hv
      rcases List.mem_cons.mp hv with h | h
      · subst h
        exact vle_trans (foldl_vmin_le_init xs (vmin s v)) (vmin_le_right s v)
      · exact ih (vmin s x) v h

/-- Folding `vmax` only grows the accumulator. -/
theorem init_le_foldl_vmax (l : List Vec3) : ∀ s : Vec3, vle s (l.foldl vmax s) := by
  induction l with
  | nil => intro s; exact vle_refl s
  | cons x xs ih =>
      intro s
      exact vle_trans (le_vmax_left s x) (ih (vmax s x))

/-- The `vmax` fold is above every list element. -/
theorem mem_le_foldl_vmax (l : List Vec3) :
    ∀ (s v : Vec3), v ∈ l → vle v (l.foldl vmax s) := by
  induction l with
  | nil => intro s v hv; cases hv
  | cons x xs ih =>
      intro s v hv
      rcases List.mem_cons.mp hv with h | h
      · subst h
        exact vle_trans (le_vmax_right s v) (init_le_foldl_vmax xs (vmax s v))
      · exact ih (vmax s x) v h

/-- What one successful loop iteration appends and how it moves the box. -/
theorem processShape_some (T : Tables) (palette : List Color)
    (st : SceneState) (shp : Shape) (st' : SceneState)
    (h : processShape T palette st shp = some st') :
    st'.mesh = st.mesh ++ [⟨shp.faces.flatten⟩] ∧
    st'.materials = st.materials ++ [matOf T palette shp] ∧
    st'.boxmin = shp.faces.flatten.foldl vmin st.boxmin ∧
    st'.boxmax = shp.faces.flatten.foldl vmax st.boxmax := by
  rw [processShape] at h
  split at h
  · split at h
    · injection h with h'
      subst h'
      exact ⟨rfl, rfl, rfl, rfl⟩
    · cases h
  · cases h

/-- Characterization of a successful `parse_scene` loop run: the final
arrays are the initial ones followed by one mesh and one material per
shape, and the box is the fold of all retained vertex positions. -/
theorem processShapes_some (T : Tables) (palette : List Color) :
    ∀ (shapes : List Shape) (st0 st : SceneState),
      processShapes T palette st0 shapes = some st →
      st.mesh = st0.mesh ++
        shapes.map (fun s => (⟨s.faces.flatten⟩ : PreparedMesh)) ∧
      st.materials = st0.materials ++ shapes.map (matOf T palette) ∧
      st.boxmin = (allVerts shapes).foldl vmin st0.boxmin ∧
      st.boxmax = (allVerts shapes).foldl vmax st0.boxmax := by
  intro shapes
  induction shapes with
  | nil =>
      intro st0 st h
      rw [processShapes] at h
      injection h with h'
      subst h'
      simp [allVerts]
  | cons shp rest ih =>
      intro st0 st h
      rw [processShapes] at h
      cases hps : processShape T palette st0 shp with
      | none => rw [hps] at h; cases h
      | some st1 =>
          rw [hps] at h
          obtain ⟨m1, m2, m3, m4⟩ := processShape_some T palette st0 shp st1 hps
          obtain ⟨r1, r2, r3, r4⟩ := ih st1 st h
          have hav : allVerts (shp :: rest) =
              shp.faces.flatten ++ allVerts rest := by
            simp [allVerts]
          refine ⟨?_, ?_, ?_, ?_⟩
          · rw [r1, m1]; simp
          · rw [r2, m2]; simp
          · rw [r3, m3, hav, List.foldl_append]
          · rw [r4, m4, hav, List.foldl_append]

/-- C8: after a successful build, the mesh and material arrays have equal
length and are index-aligned by construction order: the `i`-th entries of
both come from the `i`-th retained shape. -/
theorem mesh_material_aligned (shuffle : List Color → List Color)
    (T : Tables) (N : ℕ) (shapes : List Shape) (st : SceneState)
    (h : parse_scene shuffle T N shapes = some st) :
    st.mesh.length = st.materials.length ∧
    st.mesh = shapes.map (fun s => (⟨s.faces.flatten⟩ : PreparedMesh)) ∧
    st.materials =
      shapes.map (matOf T (get_uniform_sampled_colors shuffle N)) := by
  obtain ⟨m1, m2, -, -⟩ :=
    processShapes_some T (get_uniform_sampled_colors shuffle N) shapes
      initState st h
  rw [m1, m2]
  simp [initState]

/-- Witness for C8 at the one-shape scene `[okShape]`. -/
theorem mesh_material_aligned_witness :
    stOk.mesh.length = stOk.materials.length ∧
    stOk.mesh = [okShape].map (fun s => (⟨s.faces.flatten⟩ : PreparedMesh)) ∧
    stOk.materials =
      [okShape].map (matOf T0 (get_uniform_sampled_colors constShuffle 2)) :=
  mesh_material_aligned constShuffle T0 2 [okShape] stOk (by decide)

/-- C9: after a successful build the bounding box is the componentwise
min/max fold of all retained vertex positions from the float max/lowest
sentinels; `boxmin ≤ boxmax` whenever a vertex was added, and with no
geometry the box stays in the sentinel state `boxmax < boxmin`. -/
theorem bounding_box_spec (shuffle : List Color → List Color)
    (T : Tables) (N : ℕ) (shapes : List Shape) (st : SceneState)
    (h : parse_scene shuffle T N shapes = some st) :
    st.boxmin = (allVerts shapes).foldl vmin (FLT_MAX, FLT_MAX, FLT_MAX) ∧
    st.boxmax =
      (allVerts shapes).foldl vmax (FLT_LOWEST, FLT_LOWEST, FLT_LOWEST) ∧
    (allVerts shapes ≠ [] → vle st.boxmin st.boxmax) ∧
    (allVerts shapes = [] →
      st.boxmin = (FLT_MAX, FLT_MAX, FLT_MAX) ∧
      st.boxmax = (FLT_LOWEST, FLT_LOWEST, FLT_LOWEST) ∧
      vlt st.boxmax st.boxmin) := by
  obtain ⟨-, -, b1, b2⟩ :=
    processShapes_some T (get_uniform_sampled_colors shuffle N) shapes
      initState st h
  refine ⟨by rw [b1]; rfl, by rw [b2]; rfl, ?_, ?_⟩
  · intro hne
    obtain ⟨v, hv⟩ := List.exists_mem_of_ne_nil _ hne
    have h1 : vle st.boxmin v := by
      rw [b1]; exact foldl_vmin_le_mem _ _ v hv
    have h2 : vle v st.boxmax := by
      rw [b2]; exact mem_le_foldl_vmax _ _ v hv
    exact vle_trans h1 h2
  · intro he
    rw [b1, b2, he]
    refine ⟨rfl, rfl, ?_⟩
    simp only [List.foldl_nil]
    show vlt initState.boxmax initState.boxmin
    norm_num [initState, vlt, FLT_MAX, FLT_LOWEST]

/-- Witness for C9 at the one-shape scene `[okShape]` and, for the
sentinel branch, the empty scene. -/
theorem bounding_box_spec_witness :
    vle stOk.boxmin stOk.boxmax ∧
    stOk.boxmin = (allVerts [okShape]).foldl vmin (FLT_MAX, FLT_MAX, FLT_MAX) ∧
    vlt initState.boxmax initState.boxmin :=
  ⟨(bounding_box_spec constShuffle T0 2 [okShape] stOk (by decide)).2.2.1
      (by decide),
    (bounding_box_spec constShuffle T0 2 [okShape] stOk (by decide)).1,
    ((bounding_box_spec constShuffle T0 0 [] initState rfl).2.2.2 rfl).2.2⟩

/-- C3: the instance color of the `i`-th retained shape is the palette
entry at the shape's original index, for any number of shapes filtered out
before it. -/
theorem instance_color_by_original_index (shuffle : List Color → List Color)
    (T : Tables) (N : ℕ) (shapes : List Shape) (st : SceneState)
    (h : parse_scene shuffle T N shapes = some st)
    (i : ℕ) (shp : Shape) (hshp : shapes[i]? = some shp)
    (hk : shp.original_index < (get_uniform_sampled_colors shuffle N).length) :
    (st.materials[i]?).map MaterialDesc.instance_color =
      (get_uniform_sampled_colors shuffle N)[shp.original_index]? := by
  obtain ⟨-, m2, -, -⟩ :=
    processShapes_some T (get_uniform_sampled_colors shuffle N) shapes
      initState st h
  rw [m2]
  simp only [initState, List.nil_append]
  rw [List.getElem?_map, hshp, Option.map_some']
  simp only [matOf]
  rw [List.getElem?_eq_getElem hk]
  rw [List.getD_eq_getElem?_getD, List.getElem?_eq_getElem hk]
  rfl


/-- Witness for C3: in the scene `[okShape]`, material 0 carries palette
entry `okShape.original_index = 1`. -/
theorem instance_color_by_original_index_witness :
    (stOk.materials[0]?).map MaterialDesc.instance_color =
      (get_uniform_sampled_colors constShuffle 2)[okShape.original_index]? :=
  instance_color_by_original_index constShuffle T0 2 [okShape] stOk (by decide)
    0 okShape rfl (by decide)

/-- C4 (amended): a shape with zero faces, or whose material-id list length
differs from its face count, hits a fatal assertion (`none`); but a shape
whose faces carry several distinct material ids after splitting is NOT
checked — processing succeeds whenever the lengths match and a face
exists. -/
theorem parse_assertions (T : Tables) (palette : List Color)
    (st : SceneState) (shp : Shape) :
    (shp.faces.length = 0 → processShape T palette st shp = none) ∧
    (shp.material_ids.length ≠ shp.faces.length →
      processShape T palette st shp = none) ∧
    (shp.material_ids.length = shp.faces.length → 0 < shp.faces.length →
      processShape T palette st shp ≠ none) := by
  refine ⟨?_, ?_, ?_⟩
  · intro h0
    rw [processShape]
    split
    · rw [if_neg]; omega
    · rfl
  · intro hne
    rw [processShape, if_neg hne]
  · intro heq hpos
    rw [processShape, if_pos heq, if_pos hpos]
    exact Option.some_ne_none _

/-- Witness for C4 (amended): the zero-face shape is rejected, the
two-material shape is processed. -/
theorem parse_assertions_witness :
    processShape T0 [] initState emptyShape = none ∧
    processShape T0 [] initState badShape ≠ none :=
  ⟨(parse_assertions T0 [] initState emptyShape).1 rfl,
    (parse_assertions T0 [] initState badShape).2.2 rfl (by norm_num [badShape])⟩

/-- Counterexample to C4 as stated: `badShape` has two distinct material
ids among its faces, yet `parse_scene` raises no assertion and continues
the build with that shape (one mesh is produced). -/
theorem multi_material_not_asserted :
    badShape.material_ids = [0, 1] ∧
    (parse_scene id T0 1 [badShape]).isSome = true ∧
    (parse_scene id T0 1 [badShape]).map (fun st => st.mesh.length) =
      some 1 := by
  refine ⟨rfl, ?_, ?_⟩ <;> rfl

/-- C2: for every `count ≤ 10000` and every shuffle that permutes its
input, the allocator returns exactly `count` colors, all components in
`[0,1]`; the `i`-th pre-shuffle color decodes `interval*(i+1)` with
`interval = ⌊256^3/(count+2)⌋`; the returned colors are pairwise distinct;
and `count = 0` yields the empty sequence. -/
theorem color_allocator_spec (shuffle : List Color → List Color)
    (hs : ∀ l, (shuffle l).Perm l) (count : ℕ) :
    (get_uniform_sampled_colors shuffle count).length = count ∧
    (∀ c ∈ get_uniform_sampled_colors shuffle count, componentsIn01 c) ∧
    (∀ i, i < count → (preShuffleColors count)[i]? =
        some (decodeColor (256 ^ 3 / (count + 2) * (i + 1)))) ∧
    (count ≤ 10000 → (get_uniform_sampled_colors shuffle count).Nodup) ∧
    get_uniform_sampled_colors shuffle 0 = [] := by
  have hperm := hs (preShuffleColors count)
  have hlen : (preShuffleColors count).length = count := by
    rw [preShuffleColors_eq, List.length_map, List.length_range]
  refine ⟨?_, ?_, ?_, ?_, ?_⟩
  · rw [get_uniform_sampled_colors, hperm.length_eq, hlen]
  · intro c hc
    rw [get_uniform_sampled_colors] at hc
    have hmem : c ∈ preShuffleColors count := hperm.mem_iff.mp hc
    rw [preShuffleColors_eq, List.mem_map] at hmem
    obtain ⟨i, _, hdec⟩ := hmem
    rw [← hdec]
    exact decodeColor_in01 _
  · intro i hi
    rw [preShuffleColors_eq, List.getElem?_map, List.getElem?_range hi,
      Option.map_some']
  · intro hcount
    rw [get_uniform_sampled_colors]
    exact hperm.nodup_iff.mpr (preShuffleColors_nodup count (by omega))
  · rw [get_uniform_sampled_colors]
    exact (hs (preShuffleColors 0)).eq_nil

/-- Witness for C2 with the identity shuffle and `count = 5`. -/
theorem color_allocator_spec_witness :
    (get_uniform_sampled_colors id 5).length = 5 ∧
    (∀ c ∈ get_uniform_sampled_colors id 5, componentsIn01 c) ∧
    (∀ i, i < 5 → (preShuffleColors 5)[i]? =
        some (decodeColor (256 ^ 3 / (5 + 2) * (i + 1)))) ∧
    (5 ≤ 10000 → (get_uniform_sampled_colors id 5).Nodup) ∧
    get_uniform_sampled_colors id 0 = [] :=
  color_allocator_spec id (fun l => List.Perm.refl l) 5

/-- C10: the multiset of colors returned by the allocator does not depend
on the random source: any two permuting shuffles give the same multiset. -/
theorem palette_multiset_deterministic (s1 s2 : List Color → List Color)
    (h1 : ∀ l, (s1 l).Perm l) (h2 : ∀ l, (s2 l).Perm l) (count : ℕ) :
    (get_uniform_sampled_colors s1 count : Multiset Color) =
      (get_uniform_sampled_colors s2 count : Multiset Color) := by
  apply Multiset.coe_eq_coe.mpr
  exact (h1 (preShuffleColors count)).trans
    (h2 (preShuffleColors count)).symm

/-- Witness for C10: the identity shuffle and list reversal give the same
multiset at `count = 4`. -/
theorem palette_multiset_deterministic_witness :
    (get_uniform_sampled_colors id 4 : Multiset Color) =
      (get_uniform_sampled_colors List.reverse 4 : Multiset Color) :=
  palette_multiset_deterministic id List.reverse (fun l => List.Perm.refl l)
    (fun l => List.reverse_perm l) 4

/-- C1: in shading mode 4 (inverse depth), the fragment has `b = 0`,
`a = 1`, and decoding the red/green channels' byte values as
`256*R + G` then dividing by `65535*minDepth` recovers the fragment's
inverse depth `INV_NEAR + d*(INV_FAR - INV_NEAR)` within
`1/(65535*minDepth)`. -/
theorem invdepth_roundtrip (nf : Vec3 → Vec3)
    (tf : ℚ × ℚ → ℚ × ℚ × ℚ × ℚ) (inp : ShaderInput)
    (hm : inp.mode = 4) (hmd : 0 < inp.minDepth) :
    (fShaderMain nf tf inp).b = 0 ∧ (fShaderMain nf tf inp).a = 1 ∧
    |(256 * (255 * (fShaderMain nf tf inp).r) +
        255 * (fShaderMain nf tf inp).g) / (65535 * inp.minDepth) -
      InverseDepth inp.fragDepth| ≤ 1 / (65535 * inp.minDepth) := by
  have hc : (0 : ℚ) < 65535 * inp.minDepth := by positivity
  have hD : fShaderMain nf tf inp =
      ⟨((⌊(65535 * inp.minDepth * InverseDepth inp.fragDepth + 1/2) / 256⌋ : ℤ) : ℚ) / 255,
        ((⌊(65535 * inp.minDepth * InverseDepth inp.fragDepth + 1/2) -
            ((⌊(65535 * inp.minDepth * InverseDepth inp.fragDepth + 1/2) / 256⌋ : ℤ) : ℚ) *
              256⌋ : ℤ) : ℚ) / 255, 0, 1⟩ := by
    simp [fShaderMain, hm]
  rw [hD]
  refine ⟨rfl, rfl, ?_⟩
  have hr : ∀ t : ℚ, (255 : ℚ) * (t / 255) = t := fun t => by ring
  show |(256 * (255 * (_ / 255)) + 255 * (_ / 255)) / (65535 * inp.minDepth) -
      InverseDepth inp.fragDepth| ≤ 1 / (65535 * inp.minDepth)
  rw [hr, hr]
  exact code_div_recovers (65535 * inp.minDepth) (InverseDepth inp.fragDepth) hc

/-- Witness for C1 at the concrete mode-4 input `inpD`
(`minDepth = 1/10`, `fragDepth = 1/2`). -/
theorem invdepth_roundtrip_witness :
    (fShaderMain id (fun _ => (0, 0, 0, 1)) inpD).b = 0 ∧
    (fShaderMain id (fun _ => (0, 0, 0, 1)) inpD).a = 1 ∧
    |(256 * (255 * (fShaderMain id (fun _ => (0, 0, 0, 1)) inpD).r) +
        255 * (fShaderMain id (fun _ => (0, 0, 0, 1)) inpD).g) /
        (65535 * inpD.minDepth) - InverseDepth inpD.fragDepth| ≤
      1 / (65535 * inpD.minDepth) :=
  invdepth_roundtrip id (fun _ => (0, 0, 0, 1)) inpD rfl (by norm_num [inpD])

/-- C7: in shading mode 2 (constant) the output is exactly `(Kd, 1)`, with
no lighting: it does not depend on the normalize/texture builtins nor on
any input other than `Kd`. -/
theorem constant_mode_flat_color (nf nf' : Vec3 → Vec3)
    (tf tf' : ℚ × ℚ → ℚ × ℚ × ℚ × ℚ) (i i' : ShaderInput)
    (hm : i.mode = 2) (hm' : i'.mode = 2) (hKd : i.Kd = i'.Kd) :
    fShaderMain nf tf i = ⟨i.Kd.1, i.Kd.2.1, i.Kd.2.2, 1⟩ ∧
    fShaderMain nf tf i = fShaderMain nf' tf' i' := by
  constructor
  · simp [fShaderMain, hm]
  · simp [fShaderMain, hm, hm', hKd]

/-- Witness for C7 at the concrete inputs `inpA`, `inpB`. -/
theorem constant_mode_flat_color_witness :
    fShaderMain id (fun _ => (0, 0, 0, 1)) inpA = ⟨1/2, 1/4, 1/8, 1⟩ ∧
    fShaderMain id (fun _ => (0, 0, 0, 1)) inpA =
      fShaderMain (fun _ => (0, 0, 0)) (fun _ => (1, 1, 1, 1)) inpB :=
  constant_mode_flat_color id (fun _ => (0, 0, 0))
    (fun _ => (0, 0, 0, 1)) (fun _ => (1, 1, 1, 1)) inpA inpB rfl rfl rfl

/-- C5: a name that does not start with `Model#`, is not `Ground` and
contains `'#'` resolves through the class before the `'#'` with the
WallInside/WallOutside→Wall alias; in particular `WallInside#3`,
`WallOutside#7` and `Wall#1` all get the same semantic color. -/
theorem wall_alias_resolution (T : Tables) (name : String)
    (h1 : name.toList.take 6 ≠ "Model#".toList) (h2 : name ≠ "Ground")
    (h3 : '#' ∈ name.toList) :
    get_color_by_shape_name T name =
      T.semantic_color (aliasWall (classBeforeHash name)) ∧
    get_color_by_shape_name T "WallInside#3" =
      get_color_by_shape_name T "Wall#1" ∧
    get_color_by_shape_name T "WallOutside#7" =
      get_color_by_shape_name T "Wall#1" := by
  refine ⟨?_, rfl, rfl⟩
  rw [get_color_by_shape_name, if_neg h1, if_neg h2, if_pos h3]

/-- Witness for C5 at the concrete name `WallInside#3` and table `T0`. -/
theorem wall_alias_resolution_witness :
    get_color_by_shape_name T0 "WallInside#3" =
      T0.semantic_color (aliasWall (classBeforeHash "WallInside#3")) ∧
    get_color_by_shape_name T0 "WallInside#3" =
      get_color_by_shape_name T0 "Wall#1" ∧
    get_color_by_shape_name T0 "WallOutside#7" =
      get_color_by_shape_name T0 "Wall#1" :=
  wall_alias_resolution T0 "WallInside#3" (by decide) (by decide) (by decide)

/-- C6: a name with no `Model#` prefix, not equal to `Ground` and with no
`'#'` fails resolution and gets the background color; in particular
`"garbage"` does. -/
theorem unparseable_name_background (T : Tables) (name : String)
    (h1 : name.toList.take 6 ≠ "Model#".toList) (h2 : name ≠ "Ground")
    (h3 : '#' ∉ name.toList) :
    get_color_by_shape_name T name = T.background ∧
    get_color_by_shape_name T "garbage" = T.background := by
  refine ⟨?_, ?_⟩
  · rw [get_color_by_shape_name, if_neg h1, if_neg h2, if_neg h3]
  · rw [get_color_by_shape_name, if_neg (by decide : ¬ ("garbage".toList.take 6 = "Model#".toList)),
      if_neg (by decide : ¬ ("garbage" = "Ground")),
      if_neg (by decide : ¬ ('#' ∈ "garbage".toList))]

/-- Witness for C6 at the concrete name `garbage` and table `T0`. -/
theorem unparseable_name_background_witness :
    get_color_by_shape_name T0 "garbage" = T0.background ∧
    get_color_by_shape_name T0 "garbage" = T0.background :=
  unparseable_name_background T0 "garbage" (by decide) (by decide) (by decide)

end SUNCG
